import Mathlib

/-!
# Verification of the live-translation pipeline (`src/translator.py`)

This file gives a shallow embedding of the text-processing, buffering,
ledger and supervision logic of `translator.py` and proves the frozen
claims about it.  Machine reals (Python `float` wall-clock times and the
ratio thresholds `0.3` / `0.5`) are modelled exactly: times as rationals,
threshold comparisons `count / non_space > r` as the cross-multiplied
integer comparisons (`10*count > 3*non_space`, `2*count > non_space`);
these agree with the IEEE-754 comparisons at every input whose length is
far below 2^50 characters, in particular at every input appearing below.
-/

namespace LiveTranslation

/-- Python whitespace for `str.strip` / `str.rstrip` (the ASCII whitespace
characters; `translator.py` never feeds non-ASCII whitespace to `strip`). -/
def pyIsSpace (c : Char) : Bool :=
  c = ' ' || c = '\t' || c = '\n' || c = '\r' || c = '\x0b' || c = '\x0c'

/-- `l` with leading and trailing whitespace characters removed. -/
def pyStripList (l : List Char) : List Char :=
  ((l.dropWhile pyIsSpace).reverse.dropWhile pyIsSpace).reverse

/-- Python `text.strip()`. -/
def pyStrip (s : String) : String := String.mk (pyStripList s.data)

/-- Python `text.rstrip()`. -/
def pyRstrip (s : String) : String :=
  String.mk ((s.data.reverse.dropWhile pyIsSpace).reverse)

/-- Python `len(text.replace(" ", ""))`: the number of characters other than
the space character `' '` (tabs and newlines are counted, exactly as in the
source). Used as the denominator of every character-ratio heuristic. -/
def nonSpaceLen (s : String) : Nat := (s.data.filter (fun c => c ≠ ' ')).length

/-- `SENTENCE_ENDERS` (translator.py line 39). -/
def SENTENCE_ENDERS : List Char := ['.', '!', '?', '。', '！', '？']

/-- `ends_with_sentence` (translator.py lines 85-88): rstrip, then test the
last character for membership in `SENTENCE_ENDERS`. -/
def ends_with_sentence (text : String) : Bool :=
  match (pyRstrip text).data.reverse with
  | [] => false
  | c :: _ => SENTENCE_ENDERS.contains c

/-- Python `c.isascii() and c.isalpha()`: an ASCII letter. -/
def isAsciiAlphaChar (c : Char) : Bool :=
  decide ((97 ≤ c.toNat ∧ c.toNat ≤ 122) ∨ (65 ≤ c.toNat ∧ c.toNat ≤ 90))

/-- Membership in the Hangul syllable block `가-힯` or the Hangul
jamo block `ᄀ-ᇿ` (translator.py line 122). -/
def isHangulChar (c : Char) : Bool :=
  decide ((0xac00 ≤ c.toNat ∧ c.toNat ≤ 0xd7af) ∨ (0x1100 ≤ c.toNat ∧ c.toNat ≤ 0x11ff))

/-- Membership in hiragana `぀-ゟ`, katakana `゠-ヿ` or CJK
ideograph `一-鿿` blocks (translator.py lines 129-132). -/
def isJapaneseChar (c : Char) : Bool :=
  decide ((0x3040 ≤ c.toNat ∧ c.toNat ≤ 0x309f) ∨
          (0x30a0 ≤ c.toNat ∧ c.toNat ≤ 0x30ff) ∨
          (0x4e00 ≤ c.toNat ∧ c.toNat ≤ 0x9fff))

/-- The accented-French character set of `is_french` (translator.py line 140)
and of the inline English branch (line 160). -/
def frenchChars : List Char :=
  ['à', 'â', 'ä', 'é', 'è', 'ê', 'ë', 'ï', 'î', 'ô', 'ù', 'û', 'ü', 'ç', 'œ', 'æ',
   'À', 'Â', 'Ä', 'É', 'È', 'Ê', 'Ë', 'Ï', 'Î', 'Ô', 'Ù', 'Û', 'Ü', 'Ç', 'Œ', 'Æ']

/-- `is_korean` (translator.py lines 120-124).  The source compares
`korean_count / non_space > 0.3` in floating point; the embedding uses the
exact comparison `10 * korean_count > 3 * non_space`. -/
def is_korean (text : String) : Bool :=
  let korean_count := text.data.countP isHangulChar
  let non_space := nonSpaceLen text
  decide (0 < non_space ∧ 3 * non_space < 10 * korean_count)

/-- `is_japanese` (translator.py lines 127-134), ratio threshold 0.3. -/
def is_japanese (text : String) : Bool :=
  let jp_count := text.data.countP isJapaneseChar
  let non_space := nonSpaceLen text
  decide (0 < non_space ∧ 3 * non_space < 10 * jp_count)

/-- `is_french` (translator.py lines 137-145): ASCII-letter ratio over
non-space characters above 0.5, and at least one accented-French character
or at least one ASCII letter present. -/
def is_french (text : String) : Bool :=
  let french_count := text.data.countP (fun c => frenchChars.contains c)
  let ascii_alpha := text.data.countP isAsciiAlphaChar
  let non_space := nonSpaceLen text
  decide (0 < non_space ∧ non_space < 2 * ascii_alpha ∧
          (0 < french_count ∨ 0 < ascii_alpha))

/-- The noise-marker list of `is_valid_transcription` (translator.py
line 151) and of the buffering filter (line 327). -/
def noiseMarkers : List String := ["<noise>", "<sound>", ""]

/-- The inline English branch of `is_valid_transcription` (translator.py
lines 159-164): ASCII-letter ratio above 0.5 and no accented-French
character present. -/
def english_heuristic (text : String) : Bool :=
  let has_french := text.data.any (fun c => frenchChars.contains c)
  let ascii_count := text.data.countP isAsciiAlphaChar
  let non_space := nonSpaceLen text
  decide (0 < non_space ∧ non_space < 2 * ascii_count) && !has_french

/-- `is_valid_transcription` (translator.py lines 148-167).  The `"en"`
branch is written inline in the source; here it is the named definition
`english_heuristic`. -/
def is_valid_transcription (text : String) (source_lang : String) : Bool :=
  if noiseMarkers.contains (pyStrip text) then false
  else if source_lang = "ja" then is_japanese text
  else if source_lang = "ko" then is_korean text
  else if source_lang = "en" then english_heuristic text
  else if source_lang = "fr" then is_french text
  else true

/-- The record built by `TranslatorSession.add_pair` (translator.py
lines 102-107): sequence number, timestamp, trimmed source and trimmed
translated text. -/
structure TranslationPair where
  chunk : Nat
  timestamp : String
  input : String
  output : String
  deriving DecidableEq, Repr

/-- `TranslatorSession` (translator.py lines 91-117).  `session_id` stands
for the `datetime.now()` stamp taken once at construction; `fileLines`
models the content of the per-run JSONL ledger file, one serialized
`TranslationPair` per appended line. -/
structure TranslatorSession where
  session_id : String
  filepath : String
  pairs : List TranslationPair
  chunk_count : Nat
  fileLines : List TranslationPair
  deriving DecidableEq, Repr

/-- `TranslatorSession.__init__` (translator.py lines 92-97): empty ledger,
zero counter, file name fixed from the start timestamp. -/
def TranslatorSession.mkSession (session_id : String) : TranslatorSession :=
  { session_id := session_id
    filepath := "history/session_" ++ session_id ++ ".jsonl"
    pairs := []
    chunk_count := 0
    fileLines := [] }

/-- `TranslatorSession.add_pair` (translator.py lines 99-113): when both
texts are non-empty after trimming, increment the counter, append the pair
to the in-memory list and append one line to the ledger file, returning
`True`; otherwise leave everything unchanged and return `False`.
`ts` stands for the `datetime.now().isoformat()` taken inside the call. -/
def TranslatorSession.add_pair (s : TranslatorSession) (ts input_text output_text : String) :
    TranslatorSession × Bool :=
  if pyStrip input_text ≠ "" ∧ pyStrip output_text ≠ "" then
    let pair : TranslationPair :=
      { chunk := s.chunk_count + 1
        timestamp := ts
        input := pyStrip input_text
        output := pyStrip output_text }
    ({ s with chunk_count := s.chunk_count + 1
              pairs := s.pairs ++ [pair]
              fileLines := s.fileLines ++ [pair] }, true)
  else (s, false)

/-- `TranslatorSession.get_context` (translator.py lines 115-117):
`self.pairs[-n:] if self.pairs else []`. -/
def TranslatorSession.get_context (s : TranslatorSession) (n : Nat) : List TranslationPair :=
  if s.pairs = [] then [] else s.pairs.drop (s.pairs.length - n)

/-- A run of `add_pair` calls against one session, each call given as
`(timestamp, input_text, output_text)`.  `run_translator` creates the
`TranslatorSession` once (line 402) and every connection of the reconnect
loop shares it, so the calls of a whole run — across any number of
reconnects — form one such list. -/
def runAdds (s : TranslatorSession) (calls : List (String × String × String)) :
    TranslatorSession :=
  calls.foldl (fun st c => (st.add_pair c.1 c.2.1 c.2.2).1) s

/-- `translate_text` (translator.py lines 170-198).  The prompt assembly
(lines 173-190) cannot raise and affects only the remote call, which the
embedding treats as an oracle: `call_result` is `Except.ok text` when
`client.aio.models.generate_content` returns a response whose `.text`
strips to `text`, and `Except.error e` when anything inside the `try`
block raises an exception rendered as `e` (including a `None` response
text).  The whole body is one `try/except Exception`, so the function is
total: on failure it returns the visible marker string of line 198 instead
of raising, and the remote call is made exactly once (no retry). -/
def translate_text (_context : List TranslationPair) (_source_lang : String)
    (call_result : Except String String) : String :=
  match call_result with
  | Except.ok text => pyStrip text
  | Except.error e => "[Translation error: " ++ e ++ "]"

/-- `MIN_CHUNK_LENGTH` (translator.py line 21). -/
def MIN_CHUNK_LENGTH : Nat := 5

/-- One iteration of the `translator` worker body for a dequeued chunk
(translator.py lines 267-282): drop the chunk if its trimmed length is
below `MIN_CHUNK_LENGTH` (line 270) or if it fails
`is_valid_transcription` as a whole (line 274); otherwise translate it
with the last 5 pairs as context and hand the pair to `add_pair`.
Returns the updated session and the translated text if one was produced. -/
def translatorStep (source_lang : String) (sess : TranslatorSession)
    (source_text : String) (ts : String) (remote : Except String String) :
    TranslatorSession × Option String :=
  if (pyStrip source_text).length < MIN_CHUNK_LENGTH then (sess, none)
  else if ¬ is_valid_transcription source_text source_lang then (sess, none)
  else
    let translated := translate_text (sess.get_context 5) source_lang remote
    ((sess.add_pair ts source_text translated).1, some translated)

/-- `CHUNK_DURATION_SEC` (translator.py line 20), as a rational number of
seconds. -/
def CHUNK_DURATION_SEC : ℚ := 10

/-- `SENTENCE_FLUSH_MIN` (translator.py line 22).  Note the flush branch at
line 342 uses the literal `1.0` rather than this constant; both equal 1. -/
def SENTENCE_FLUSH_MIN : ℚ := 1

/-- The mutable state of `receive` (translator.py lines 291-292):
`current_buffer` and `last_chunk_time` (a wall-clock instant, modelled as a
rational). -/
structure AccState where
  buffer : String
  lastChunkTime : ℚ
  deriving DecidableEq, Repr

/-- One event of the remote stream as seen by `receive`'s inner loop, with
the wall-clock time `now` at which it is processed: either an interruption
(`sc.interrupted`, line 315) or a server-content event optionally carrying
an input-transcription fragment (lines 324-325; `none` when the event has
no transcription text). -/
inductive RecvEvent where
  | interrupted (now : ℚ)
  | content (now : ℚ) (fragment : Option String)
  deriving DecidableEq, Repr

/-- The buffer after the fragment filter of translator.py lines 324-330: a
fragment is appended exactly when it passes `is_valid_transcription` for
the active source language or strips to a noise marker / empty string;
otherwise it is discarded silently. -/
def contentBuffer (source_lang : String) (buffer : String) : Option String → String
  | some chunk =>
      if is_valid_transcription chunk source_lang || noiseMarkers.contains (pyStrip chunk) then
        buffer ++ chunk
      else buffer
  | none => buffer

/-- One iteration of `receive`'s event loop (translator.py lines 315-349),
returning the new state and the chunk queued to `translation_queue`, if
any.  `sentence_min` is the minimum elapsed time before a sentence-end
flush: the source uses the literal `1.0` at line 342 (the mixed-language
live translator); the 3-second bilingual variant named by the spec has no
accumulator under `src/` and is covered by instantiating this parameter.
On interruption: queue the stripped buffer when non-empty, reset the
buffer and restart the flush timer (lines 315-321).  On content: append an
accepted fragment, then flush — queueing the stripped buffer and resetting
buffer and timer — exactly when the buffer is non-empty after trimming and
either the elapsed time since the last flush reached `CHUNK_DURATION_SEC`
or it reached `sentence_min` and the buffer ends with a sentence
terminator (lines 332-349). -/
def recvStep (sentence_min : ℚ) (source_lang : String) (s : AccState) :
    RecvEvent → AccState × Option String
  | RecvEvent.interrupted now =>
      if pyStrip s.buffer = "" then ({ buffer := "", lastChunkTime := now }, none)
      else ({ buffer := "", lastChunkTime := now }, some (pyStrip s.buffer))
  | RecvEvent.content now frag =>
      let buf := contentBuffer source_lang s.buffer frag
      let elapsed := now - s.lastChunkTime
      if pyStrip buf ≠ "" ∧
          (CHUNK_DURATION_SEC ≤ elapsed ∨
            (sentence_min ≤ elapsed ∧ ends_with_sentence buf = true)) then
        ({ buffer := "", lastChunkTime := now }, some (pyStrip buf))
      else
        ({ buffer := buf, lastChunkTime := s.lastChunkTime }, none)

/-- `receive`'s event loop over a list of events, collecting the queued
chunks in order. -/
def runRecv (sentence_min : ℚ) (source_lang : String) (s : AccState) :
    List RecvEvent → AccState × List String
  | [] => (s, [])
  | e :: rest =>
      let step := recvStep sentence_min source_lang s e
      let tail := runRecv sentence_min source_lang step.1 rest
      (tail.1, step.2.toList ++ tail.2)

/-- How `receive` terminates (translator.py lines 294-362): `normal` — the
`while running` loop exits and control falls through to line 360;
`error` — an exception derived from `Exception` is raised while `running`
is true and is caught at line 351; `cancelled` — the task is cancelled
(`asyncio.TimeoutError` teardown of the supervisor's `wait_for`), which in
Python ≥ 3.8 raises `asyncio.CancelledError`, a `BaseException` that the
`except Exception` handler at line 351 does not catch. -/
inductive ReceiveTermination where
  | normal
  | error
  | cancelled
  deriving DecidableEq, Repr

/-- The chunks `receive` queues while terminating (translator.py
lines 351-362): on `error` the residual buffer is flushed at lines 354-356
before the re-raise; on `normal` it is flushed at lines 360-362; on
`cancelled` the `CancelledError` propagates past both handlers and nothing
is flushed. -/
def receive_final_flush (buffer : String) : ReceiveTermination → List String
  | ReceiveTermination.cancelled => []
  | _ => if pyStrip buffer = "" then [] else [pyStrip buffer]

/-- A complete `receive` call: process the stream events, then terminate,
returning the final accumulator state and every chunk queued to
`translation_queue` in order. -/
def receiveRun (sentence_min : ℚ) (source_lang : String) (s : AccState)
    (evs : List RecvEvent) (t : ReceiveTermination) : AccState × List String :=
  let run := runRecv sentence_min source_lang s evs
  (run.1, run.2 ++ receive_final_flush run.1.buffer t)

/-- How one `asyncio.wait_for(run_session(...), timeout=SESSION_TIMEOUT)`
iteration of `run_translator`'s loop ends (translator.py lines 414-434):
`timedOut` — the session timeout expired, `wait_for` cancelled
`run_session` and raised `asyncio.TimeoutError`, so the handle
`run_session` would have returned is discarded with the cancelled
coroutine; `errored` — `run_session` re-raised a session error (line 395);
`returned` — `run_session` returned `new_resume_handle` before the
timeout. -/
inductive SessionEnd where
  | timedOut
  | errored
  | returned
  deriving DecidableEq, Repr

/-- One iteration of the supervisor loop of `run_translator` (translator.py
lines 413-434) acting on its `resume_handle` variable.  `issued_handle` is
the last resumption token the remote session issued during the connection
(the `new_resume_handle` captured at translator.py lines 301-305, which
`run_session` returns at line 397).  The result is the `resume_handle`
held after the iteration — the token the next `run_session` call would be
opened with — and whether the loop continues (reconnects).
Per the source: on `asyncio.TimeoutError` (lines 424-426) the handler only
prints and `continue`s, so `resume_handle` is unchanged — the assignment at
lines 421-422 was never reached because `wait_for` discarded
`run_session`'s return value; on any other exception (lines 429-434) the
handler backs off and `continue`s with `resume_handle` unchanged; on a
normal return (lines 416-423) a non-`None` returned handle is stored and
the loop `break`s. -/
def supervisorStep (resume_handle : Option String) (issued_handle : Option String) :
    SessionEnd → Option String × Bool
  | SessionEnd.timedOut => (resume_handle, true)
  | SessionEnd.errored => (resume_handle, true)
  | SessionEnd.returned =>
      (match issued_handle with
       | some h => some h
       | none => resume_handle, false)

/-- All non-space characters are Hangul (single-script Korean text). -/
def allHangul (s : String) : Bool :=
  s.data.all (fun c => c = ' ' || isHangulChar c)

/-- All non-space characters are hiragana, katakana or CJK ideographs
(single-script Japanese text). -/
def allJapaneseScript (s : String) : Bool :=
  s.data.all (fun c => c = ' ' || isJapaneseChar c)

/-- All non-space characters are ASCII letters (single-script Latin text,
the shape of input the English and French classifiers target). -/
def allAsciiAlpha (s : String) : Bool :=
  s.data.all (fun c => c = ' ' || isAsciiAlphaChar c)

/-- No character of `s` is a sentence terminator. -/
def noEnderChars (s : String) : Bool :=
  s.data.all (fun c => !(SENTENCE_ENDERS.contains c))

attribute [local semireducible] Rat.add Rat.sub

/-! ## Helper lemmas -/

/-- A string none of whose characters is a sentence terminator does not end
with one. -/
theorem ends_with_sentence_eq_false (b : String) (h : noEnderChars b = true) :
    ends_with_sentence b = false := by
  unfold noEnderChars at h
  rw [List.all_eq_true] at h
  unfold ends_with_sentence
  cases hrev : (pyRstrip b).data.reverse with
  | nil => rfl
  | cons c rest =>
      have hc : c ∈ b.data := by
        have h1 : c ∈ (pyRstrip b).data.reverse := by
          rw [hrev]; exact List.mem_cons_self _ _
        have h2 : c ∈ b.data.reverse.dropWhile pyIsSpace := by
          simpa [pyRstrip] using List.mem_reverse.mp h1
        exact List.mem_reverse.mp ((List.dropWhile_sublist _).subset h2)
      have hnc := h c hc
      simp only [Bool.not_eq_eq_eq_not, Bool.not_true] at hnc
      exact hnc

/-- Appending fragment text cannot introduce a sentence terminator that was
not there. -/
theorem noEnderChars_contentBuffer (lang buf : String) (frag : Option String)
    (hb : noEnderChars buf = true)
    (hf : ∀ f, frag = some f → noEnderChars f = true) :
    noEnderChars (contentBuffer lang buf frag) = true := by
  cases frag with
  | none => exact hb
  | some f =>
      have hf' := hf f rfl
      have hcases : contentBuffer lang buf (some f) = buf ++ f ∨
          contentBuffer lang buf (some f) = buf := by
        simp only [contentBuffer]
        split
        · exact Or.inl rfl
        · exact Or.inr rfl
      rcases hcases with hred | hred <;> rw [hred]
      · unfold noEnderChars at hb hf' ⊢
        rw [List.all_eq_true] at hb hf' ⊢
        intro c hc
        rw [String.data_append, List.mem_append] at hc
        rcases hc with hc | hc
        · exact hb c hc
        · exact hf' c hc
      · exact hb

/-- Processing a stream of content events that all arrive within
`CHUNK_DURATION_SEC` of the last flush and never contribute a sentence
terminator queues nothing: the buffer accumulates and the flush timer
origin is unchanged. -/
theorem runRecv_no_flush (minF : ℚ) (lang : String) :
    ∀ (evs : List RecvEvent) (s : AccState),
      noEnderChars s.buffer = true →
      (∀ e ∈ evs, ∃ now frag, e = RecvEvent.content now frag ∧
          now - s.lastChunkTime < CHUNK_DURATION_SEC ∧
          ∀ f, frag = some f → noEnderChars f = true) →
      (runRecv minF lang s evs).2 = [] ∧
      (runRecv minF lang s evs).1.lastChunkTime = s.lastChunkTime ∧
      noEnderChars (runRecv minF lang s evs).1.buffer = true := by
  intro evs
  induction evs with
  | nil => exact fun s hb _ => ⟨rfl, rfl, hb⟩
  | cons e rest ih =>
      intro s hb h
      obtain ⟨now, frag, rfl, hlt, hfr⟩ := h e (List.mem_cons_self _ _)
      have hbuf : noEnderChars (contentBuffer lang s.buffer frag) = true :=
        noEnderChars_contentBuffer lang s.buffer frag hb hfr
      have hends : ends_with_sentence (contentBuffer lang s.buffer frag) = false :=
        ends_with_sentence_eq_false _ hbuf
      have hcond : ¬ (pyStrip (contentBuffer lang s.buffer frag) ≠ "" ∧
          (CHUNK_DURATION_SEC ≤ now - s.lastChunkTime ∨
            (minF ≤ now - s.lastChunkTime ∧
              ends_with_sentence (contentBuffer lang s.buffer frag) = true))) := by
        rintro ⟨-, h10 | ⟨-, hsen⟩⟩
        · exact absurd h10 (not_le.mpr hlt)
        · rw [hends] at hsen; exact Bool.false_ne_true hsen
      have hstep : recvStep minF lang s (RecvEvent.content now frag) =
          ({ buffer := contentBuffer lang s.buffer frag,
             lastChunkTime := s.lastChunkTime }, none) := by
        simp only [recvStep]
        rw [if_neg hcond]
      have hrest := ih { buffer := contentBuffer lang s.buffer frag,
                         lastChunkTime := s.lastChunkTime }
        hbuf
        (by
          intro e' he'
          obtain ⟨now', frag', rfl, hlt', hfr'⟩ := h e' (List.mem_cons_of_mem _ he')
          exact ⟨now', frag', rfl, hlt', hfr'⟩)
      simpa [runRecv, hstep] using hrest

/-- `runRecv` splits over list append. -/
theorem runRecv_append (minF : ℚ) (lang : String) :
    ∀ (a b : List RecvEvent) (s : AccState),
      runRecv minF lang s (a ++ b) =
        ((runRecv minF lang (runRecv minF lang s a).1 b).1,
         (runRecv minF lang s a).2 ++ (runRecv minF lang (runRecv minF lang s a).1 b).2) := by
  intro a
  induction a with
  | nil => intro b s; simp [runRecv]
  | cons e rest ih =>
      intro b s
      simp [runRecv, ih]

/-- `add_pair` preserves the gapless-numbering invariant of the ledger. -/
theorem add_pair_chunkNumbers (s : TranslatorSession) (ts i o : String)
    (h : s.pairs.map TranslationPair.chunk = List.range' 1 s.chunk_count) :
    ((s.add_pair ts i o).1).pairs.map TranslationPair.chunk =
      List.range' 1 ((s.add_pair ts i o).1).chunk_count := by
  unfold TranslatorSession.add_pair
  split
  · simp [h, List.range'_concat, Nat.add_comm]
  · exact h

/-- `runAdds` preserves the gapless-numbering invariant of the ledger. -/
theorem runAdds_chunkNumbers :
    ∀ (calls : List (String × String × String)) (s : TranslatorSession),
      s.pairs.map TranslationPair.chunk = List.range' 1 s.chunk_count →
      (runAdds s calls).pairs.map TranslationPair.chunk =
        List.range' 1 (runAdds s calls).chunk_count := by
  intro calls
  induction calls with
  | nil => exact fun s h => h
  | cons c rest ih =>
      intro s h
      simpa [runAdds] using ih _ (add_pair_chunkNumbers s c.1 c.2.1 c.2.2 h)

/-- `runAdds` never changes the file identity or the session stamp. -/
theorem runAdds_filepath :
    ∀ (calls : List (String × String × String)) (s : TranslatorSession),
      (runAdds s calls).filepath = s.filepath ∧
      (runAdds s calls).session_id = s.session_id := by
  intro calls
  induction calls with
  | nil => exact fun s => ⟨rfl, rfl⟩
  | cons c rest ih =>
      intro s
      have h := ih (s.add_pair c.1 c.2.1 c.2.2).1
      have hkeep : ((s.add_pair c.1 c.2.1 c.2.2).1).filepath = s.filepath ∧
          ((s.add_pair c.1 c.2.1 c.2.2).1).session_id = s.session_id := by
        unfold TranslatorSession.add_pair
        split <;> exact ⟨rfl, rfl⟩
      simpa [runAdds, hkeep.1, hkeep.2] using h

/-- `runAdds` only ever appends to the ledger file. -/
theorem runAdds_fileLines :
    ∀ (calls : List (String × String × String)) (s : TranslatorSession),
      ∃ tail, (runAdds s calls).fileLines = s.fileLines ++ tail := by
  intro calls
  induction calls with
  | nil => exact fun s => ⟨[], by simp [runAdds]⟩
  | cons c rest ih =>
      intro s
      obtain ⟨tail, htail⟩ := ih (s.add_pair c.1 c.2.1 c.2.2).1
      have hone : ∃ t1, ((s.add_pair c.1 c.2.1 c.2.2).1).fileLines = s.fileLines ++ t1 := by
        unfold TranslatorSession.add_pair
        split
        · exact ⟨_, rfl⟩
        · exact ⟨[], by simp⟩
      obtain ⟨t1, ht1⟩ := hone
      refine ⟨t1 ++ tail, ?_⟩
      simp only [runAdds, List.foldl_cons] at *
      rw [htail, ht1, List.append_assoc]

/-- Every accented-French character has a code point below `0x1000`. -/
theorem frenchChars_toNat : ∀ d ∈ frenchChars, d.toNat < 0x1000 := by decide

/-- Characters at or above code point `0x1000` are not accented-French. -/
theorem notFrench_of_big (c : Char) (h : 0x1000 ≤ c.toNat) :
    frenchChars.contains c = false := by
  by_contra hc
  rw [Bool.not_eq_false] at hc
  have hmem : c ∈ frenchChars := List.elem_iff.mp hc
  have := frenchChars_toNat c hmem
  omega

/-- Every accented-French character has a code point of at least `0xc0`. -/
theorem frenchChars_toNat_ge : ∀ d ∈ frenchChars, 0xc0 ≤ d.toNat := by decide

/-- ASCII characters are not accented-French. -/
theorem notFrench_of_ascii (c : Char) (h : c.toNat ≤ 122) :
    frenchChars.contains c = false := by
  by_contra hc
  rw [Bool.not_eq_false] at hc
  have hmem : c ∈ frenchChars := List.elem_iff.mp hc
  have := frenchChars_toNat_ge c hmem
  omega

/-- An ASCII letter is in no other character class used by the
classifiers, and is not a space. -/
theorem asciiAlpha_not_others (c : Char) (h : isAsciiAlphaChar c = true) :
    isHangulChar c = false ∧ isJapaneseChar c = false ∧
    frenchChars.contains c = false ∧ c ≠ ' ' := by
  have hv : (97 ≤ c.toNat ∧ c.toNat ≤ 122) ∨ (65 ≤ c.toNat ∧ c.toNat ≤ 90) := by
    simpa [isAsciiAlphaChar, decide_eq_true_eq] using h
  refine ⟨?_, ?_, ?_, ?_⟩
  · simp only [isHangulChar, decide_eq_false_iff_not]; omega
  · simp only [isJapaneseChar, decide_eq_false_iff_not]; omega
  · exact notFrench_of_ascii c (by omega)
  · intro hsp
    subst hsp
    exact absurd hv (by decide)

/-- A Hangul character is in no other character class used by the
classifiers, and is not a space. -/
theorem hangul_not_others (c : Char) (h : isHangulChar c = true) :
    isJapaneseChar c = false ∧ isAsciiAlphaChar c = false ∧
    frenchChars.contains c = false ∧ c ≠ ' ' := by
  have hv : (0xac00 ≤ c.toNat ∧ c.toNat ≤ 0xd7af) ∨
      (0x1100 ≤ c.toNat ∧ c.toNat ≤ 0x11ff) := by
    simpa [isHangulChar, decide_eq_true_eq] using h
  refine ⟨?_, ?_, ?_, ?_⟩
  · simp only [isJapaneseChar, decide_eq_false_iff_not]; omega
  · simp only [isAsciiAlphaChar, decide_eq_false_iff_not]; omega
  · exact notFrench_of_big c (by omega)
  · intro hsp
    subst hsp
    exact absurd hv (by decide)

/-- A Japanese-script character is in no other character class used by the
classifiers, and is not a space. -/
theorem japanese_not_others (c : Char) (h : isJapaneseChar c = true) :
    isHangulChar c = false ∧ isAsciiAlphaChar c = false ∧
    frenchChars.contains c = false ∧ c ≠ ' ' := by
  have hv : (0x3040 ≤ c.toNat ∧ c.toNat ≤ 0x309f) ∨
      (0x30a0 ≤ c.toNat ∧ c.toNat ≤ 0x30ff) ∨
      (0x4e00 ≤ c.toNat ∧ c.toNat ≤ 0x9fff) := by
    simpa [isJapaneseChar, decide_eq_true_eq] using h
  refine ⟨?_, ?_, ?_, ?_⟩
  · simp only [isHangulChar, decide_eq_false_iff_not]; omega
  · simp only [isAsciiAlphaChar, decide_eq_false_iff_not]; omega
  · exact notFrench_of_big c (by omega)
  · intro hsp
    subst hsp
    exact absurd hv (by decide)

/-- On a single-script list, the script class counts exactly the non-space
characters. -/
theorem countP_single_script (l : List Char) (p : Char → Bool)
    (hall : ∀ c ∈ l, c = ' ' ∨ p c = true)
    (hsp : ∀ c, p c = true → c ≠ ' ') :
    l.countP p = l.countP (fun c => decide (c ≠ ' ')) := by
  apply List.countP_congr
  intro c hc
  rcases hall c hc with rfl | hp
  · constructor
    · intro hp'
      exact absurd rfl (hsp _ hp')
    · intro hd
      simp at hd
  · simp [hp, hsp _ hp]

/-- On a single-script list, any class disjoint from the script and from
the space character counts zero. -/
theorem countP_zero_of (l : List Char) (p q : Char → Bool)
    (hall : ∀ c ∈ l, c = ' ' ∨ p c = true)
    (hq : q ' ' = false) (hpq : ∀ c, p c = true → q c = false) :
    l.countP q = 0 := by
  rw [List.countP_eq_zero]
  intro c hc
  rcases hall c hc with rfl | hp
  · simp [hq]
  · simp [hpq c hp]

/-! ## Claim theorems -/

/-- C1: `run_translator`'s `except asyncio.TimeoutError` branch leaves
`resume_handle` untouched, because `asyncio.wait_for` cancels `run_session`
on expiry and discards the handle it would have returned.  So on a clean
session-timeout expiry the supervisor does NOT capture the resumption token
the remote session issued during the connection — contrary to the claim —
and the new connection is opened with the pre-existing handle (initially
`None`), not the freshly issued `"token-1"`. -/
theorem resume_token_dropped_on_timeout :
    supervisorStep none (some "token-1") SessionEnd.timedOut = (none, true) ∧
    ∀ (resume issued : Option String),
      (supervisorStep resume issued SessionEnd.timedOut).1 = resume :=
  ⟨rfl, fun _ _ => rfl⟩

/-- C2 counterexample: a full `receive` call that ends in timeout-driven
teardown (`asyncio.CancelledError` from the supervisor's `wait_for`) with
the non-empty residual buffer `"Hello"` queues nothing at termination —
the residual chunk is dropped, so the claimed exactly-once flush on every
stream termination is false. -/
theorem residual_flush_timeout_cex :
    pyStrip "Hello" ≠ "" ∧
    (receiveRun 1 "en" ⟨"Hello", 0⟩ [] ReceiveTermination.cancelled).2 = [] := by
  constructor
  · decide
  · rfl

/-- C2 amended: on normal completion and on error termination, a residual
non-empty (after trimming) buffer is flushed exactly once — the chunk
stream of the whole `receive` call is the in-loop chunks followed by
exactly one copy of the trimmed residual buffer — and an empty-after-
trimming residual buffer is not flushed; but on timeout-driven teardown
(cancellation) the residual buffer is discarded without being flushed,
since `asyncio.CancelledError` bypasses both flush sites of `receive`. -/
theorem residual_flush_amended (minF : ℚ) (lang : String) (s : AccState)
    (evs : List RecvEvent) :
    (∀ t, t ≠ ReceiveTermination.cancelled →
        pyStrip (runRecv minF lang s evs).1.buffer ≠ "" →
        (receiveRun minF lang s evs t).2 =
          (runRecv minF lang s evs).2 ++
            [pyStrip (runRecv minF lang s evs).1.buffer]) ∧
    (∀ t, t ≠ ReceiveTermination.cancelled →
        pyStrip (runRecv minF lang s evs).1.buffer = "" →
        (receiveRun minF lang s evs t).2 = (runRecv minF lang s evs).2) ∧
    (receiveRun minF lang s evs ReceiveTermination.cancelled).2 =
      (runRecv minF lang s evs).2 := by
  refine ⟨?_, ?_, ?_⟩
  · intro t ht hne
    cases t with
    | cancelled => exact absurd rfl ht
    | normal => simp [receiveRun, receive_final_flush, hne]
    | error => simp [receiveRun, receive_final_flush, hne]
  · intro t ht hemp
    cases t with
    | cancelled => exact absurd rfl ht
    | normal => simp [receiveRun, receive_final_flush, hemp]
    | error => simp [receiveRun, receive_final_flush, hemp]
  · simp [receiveRun, receive_final_flush]

/-- C2 amended, witness at a concrete input: an error termination with
residual buffer `"Hello"` queues exactly `["Hello"]`. -/
theorem residual_flush_amended_witness :
    (receiveRun 1 "en" ⟨"Hello", 0⟩ [] ReceiveTermination.error).2 = ["Hello"] := by
  have h := (residual_flush_amended 1 "en" ⟨"Hello", 0⟩ []).1
    ReceiveTermination.error (by decide) (by decide)
  rw [h]
  decide

/-- C3: for every content event processed by the accumulator, a flush
happens if and only if the buffer (after appending an accepted fragment) is
non-empty after trimming and either the elapsed time since the last flush
reached `CHUNK_DURATION_SEC` (10 s) or it reached the sentence-flush
minimum (`1.0` in the source; 3 s in the spec-modelled bilingual variant —
both are instances of the parameter `minF`) and the buffer's trailing
non-space character is a sentence terminator; in particular, over a stream
of events none of which carries a terminator, no flush occurs while events
arrive within 10 s of the last flush, and exactly one chunk is emitted by
the first event at or past the 10-second boundary with a non-empty
buffer. -/
theorem flush_policy (minF : ℚ) (lang : String) :
    (∀ (s : AccState) (now : ℚ) (frag : Option String),
        ((recvStep minF lang s (RecvEvent.content now frag)).2.isSome = true ↔
          (pyStrip (contentBuffer lang s.buffer frag) ≠ "" ∧
            (CHUNK_DURATION_SEC ≤ now - s.lastChunkTime ∨
              (minF ≤ now - s.lastChunkTime ∧
                ends_with_sentence (contentBuffer lang s.buffer frag) = true))))) ∧
    (∀ (s : AccState) (evs : List RecvEvent),
        noEnderChars s.buffer = true →
        (∀ e ∈ evs, ∃ t f, e = RecvEvent.content t f ∧
            t - s.lastChunkTime < CHUNK_DURATION_SEC ∧
            ∀ g, f = some g → noEnderChars g = true) →
        (runRecv minF lang s evs).2 = []) ∧
    (∀ (s : AccState) (evs : List RecvEvent) (now : ℚ) (frag : Option String),
        noEnderChars s.buffer = true →
        (∀ e ∈ evs, ∃ t f, e = RecvEvent.content t f ∧
            t - s.lastChunkTime < CHUNK_DURATION_SEC ∧
            ∀ g, f = some g → noEnderChars g = true) →
        CHUNK_DURATION_SEC ≤ now - s.lastChunkTime →
        pyStrip (contentBuffer lang (runRecv minF lang s evs).1.buffer frag) ≠ "" →
        (runRecv minF lang s (evs ++ [RecvEvent.content now frag])).2 =
          [pyStrip (contentBuffer lang (runRecv minF lang s evs).1.buffer frag)]) := by
  refine ⟨?_, ?_, ?_⟩
  · intro s now frag
    by_cases hcond : pyStrip (contentBuffer lang s.buffer frag) ≠ "" ∧
        (CHUNK_DURATION_SEC ≤ now - s.lastChunkTime ∨
          (minF ≤ now - s.lastChunkTime ∧
            ends_with_sentence (contentBuffer lang s.buffer frag) = true))
    · simp only [recvStep]
      rw [if_pos hcond]
      simpa using hcond
    · simp only [recvStep]
      rw [if_neg hcond]
      simpa using hcond
  · exact fun s evs hb h => (runRecv_no_flush minF lang evs s hb h).1
  · intro s evs now frag hb h h10 hne
    obtain ⟨hnil, hlast, hbuf⟩ := runRecv_no_flush minF lang evs s hb h
    rw [runRecv_append, hnil]
    have hcond : pyStrip (contentBuffer lang (runRecv minF lang s evs).1.buffer frag) ≠ "" ∧
        (CHUNK_DURATION_SEC ≤ now - (runRecv minF lang s evs).1.lastChunkTime ∨
          (minF ≤ now - (runRecv minF lang s evs).1.lastChunkTime ∧
            ends_with_sentence
              (contentBuffer lang (runRecv minF lang s evs).1.buffer frag) = true)) :=
      ⟨hne, Or.inl (by rw [hlast]; exact h10)⟩
    simp only [runRecv, recvStep, List.nil_append]
    rw [if_pos hcond]
    simp

/-- C3 witness: with the source's 1-second minimum and English source,
terminator-free fragments at 3 s and 6 s produce no flush, and a further
event at 11 s (past the 10-second boundary) flushes exactly once, emitting
the accumulated chunk. -/
theorem flush_policy_witness :
    (runRecv 1 "en" ⟨"", 0⟩
        [RecvEvent.content 3 (some "Hello"), RecvEvent.content 6 (some " world")]).2 =
      [] ∧
    (runRecv 1 "en" ⟨"", 0⟩
        ([RecvEvent.content 3 (some "Hello"), RecvEvent.content 6 (some " world")] ++
          [RecvEvent.content 11 none])).2 = ["Hello world"] := by
  have hmem : ∀ e ∈ [RecvEvent.content (3 : ℚ) (some "Hello"),
      RecvEvent.content (6 : ℚ) (some " world")],
      ∃ t f, e = RecvEvent.content t f ∧
        t - (⟨"", 0⟩ : AccState).lastChunkTime < CHUNK_DURATION_SEC ∧
        ∀ g, f = some g → noEnderChars g = true := by
    intro e he
    rcases List.mem_cons.mp he with rfl | he2
    · exact ⟨3, some "Hello", rfl, by decide, fun g hg => by cases hg; decide⟩
    · rcases List.mem_cons.mp he2 with rfl | he3
      · exact ⟨6, some " world", rfl, by decide, fun g hg => by cases hg; decide⟩
      · cases he3
  constructor
  · exact (flush_policy 1 "en").2.1 ⟨"", 0⟩ _ (by decide) hmem
  · have h := (flush_policy 1 "en").2.2 ⟨"", 0⟩
      [RecvEvent.content 3 (some "Hello"), RecvEvent.content 6 (some " world")]
      11 none (by decide) hmem (by decide) (by decide)
    rw [h]
    decide

/-- C4: for a session created at run start, the sequence numbers of the
ledger pairs after any list of `add_pair` calls are exactly `1, 2, …, k`
(gapless, strictly increasing); the ledger file name and session stamp
never change after construction; the ledger file is only ever appended to;
and runs compose — processing the calls of a second connection continues
from the state after the first, so reconnection does not reset the
numbering. -/
theorem ledger_sequence (sid : String) (calls : List (String × String × String)) :
    (runAdds (TranslatorSession.mkSession sid) calls).pairs.map TranslationPair.chunk =
      List.range' 1 (runAdds (TranslatorSession.mkSession sid) calls).chunk_count ∧
    (∀ s : TranslatorSession,
        (runAdds s calls).filepath = s.filepath ∧
        (runAdds s calls).session_id = s.session_id) ∧
    (∀ s : TranslatorSession, ∃ tail, (runAdds s calls).fileLines = s.fileLines ++ tail) ∧
    (∀ (s : TranslatorSession) (more : List (String × String × String)),
        runAdds s (calls ++ more) = runAdds (runAdds s calls) more) := by
  refine ⟨?_, fun s => runAdds_filepath calls s, fun s => runAdds_fileLines calls s, ?_⟩
  · exact runAdds_chunkNumbers calls _ (by simp [TranslatorSession.mkSession, List.range'])
  · intro s more
    simp [runAdds, List.foldl_append]

/-- C6 counterexample: the period-free, single-script fragment `"hello"`
exceeds the English threshold and is accepted by both the English and the
French classifiers (and by the full validity check under both tags), so the
four classifiers are not mutually exclusive on such inputs. -/
theorem english_french_overlap :
    english_heuristic "hello" = true ∧ is_french "hello" = true ∧
    is_valid_transcription "hello" "en" = true ∧
    is_valid_transcription "hello" "fr" = true ∧
    noEnderChars "hello" = true := by decide

/-- C6 amended: on single-script inputs with at least one non-space
character, the Korean and Japanese classifiers are accepted exactly by
their own script and exclude the other three classifiers — in particular,
on single-script Latin (ASCII-letter) inputs, the inputs the English and
French classifiers target, both Korean and Japanese reject; but the French
and English classifiers are not mutually exclusive: on those same Latin
inputs both accept, and in general every fragment accepted by the English
heuristic is also accepted by `is_french`, because an ASCII-letter ratio
above one half already supplies the ASCII letter that `is_french`'s
presence disjunct asks for. -/
theorem classifier_exclusivity_amended :
    (∀ t : String, nonSpaceLen t ≠ 0 → allHangul t = true →
        is_korean t = true ∧ is_japanese t = false ∧ is_french t = false ∧
          english_heuristic t = false) ∧
    (∀ t : String, nonSpaceLen t ≠ 0 → allJapaneseScript t = true →
        is_japanese t = true ∧ is_korean t = false ∧ is_french t = false ∧
          english_heuristic t = false) ∧
    (∀ t : String, nonSpaceLen t ≠ 0 → allAsciiAlpha t = true →
        english_heuristic t = true ∧ is_french t = true ∧ is_korean t = false ∧
          is_japanese t = false) ∧
    (∀ t : String, english_heuristic t = true → is_french t = true) := by
  refine ⟨?_, ?_, ?_, ?_⟩
  · intro t hn hall
    rw [allHangul, List.all_eq_true] at hall
    have hall' : ∀ c ∈ t.data, c = ' ' ∨ isHangulChar c = true := by
      intro c hc
      simpa [Bool.or_eq_true, decide_eq_true_eq] using hall c hc
    have hK : t.data.countP isHangulChar = nonSpaceLen t := by
      rw [countP_single_script t.data isHangulChar hall'
        (fun c hc => (hangul_not_others c hc).2.2.2)]
      rw [nonSpaceLen, List.countP_eq_length_filter]
    have hJ : t.data.countP isJapaneseChar = 0 :=
      countP_zero_of t.data isHangulChar isJapaneseChar hall' (by decide)
        (fun c hc => (hangul_not_others c hc).1)
    have hA : t.data.countP isAsciiAlphaChar = 0 :=
      countP_zero_of t.data isHangulChar isAsciiAlphaChar hall' (by decide)
        (fun c hc => (hangul_not_others c hc).2.1)
    have hF : t.data.countP (fun c => frenchChars.contains c) = 0 :=
      countP_zero_of t.data isHangulChar (fun c => frenchChars.contains c) hall'
        (by decide) (fun c hc => (hangul_not_others c hc).2.2.1)
    refine ⟨?_, ?_, ?_, ?_⟩
    · simp only [is_korean, hK, decide_eq_true_eq]
      omega
    · simp only [is_japanese, hJ, decide_eq_false_iff_not]
      omega
    · simp only [is_french, hF, hA, decide_eq_false_iff_not]
      omega
    · simp only [english_heuristic, hA]
      have hdec : decide (0 < nonSpaceLen t ∧ nonSpaceLen t < 2 * 0) = false := by
        simp
      rw [hdec, Bool.false_and]
  · intro t hn hall
    rw [allJapaneseScript, List.all_eq_true] at hall
    have hall' : ∀ c ∈ t.data, c = ' ' ∨ isJapaneseChar c = true := by
      intro c hc
      simpa [Bool.or_eq_true, decide_eq_true_eq] using hall c hc
    have hJ : t.data.countP isJapaneseChar = nonSpaceLen t := by
      rw [countP_single_script t.data isJapaneseChar hall'
        (fun c hc => (japanese_not_others c hc).2.2.2)]
      rw [nonSpaceLen, List.countP_eq_length_filter]
    have hK : t.data.countP isHangulChar = 0 :=
      countP_zero_of t.data isJapaneseChar isHangulChar hall' (by decide)
        (fun c hc => (japanese_not_others c hc).1)
    have hA : t.data.countP isAsciiAlphaChar = 0 :=
      countP_zero_of t.data isJapaneseChar isAsciiAlphaChar hall' (by decide)
        (fun c hc => (japanese_not_others c hc).2.1)
    have hF : t.data.countP (fun c => frenchChars.contains c) = 0 :=
      countP_zero_of t.data isJapaneseChar (fun c => frenchChars.contains c) hall'
        (by decide) (fun c hc => (japanese_not_others c hc).2.2.1)
    refine ⟨?_, ?_, ?_, ?_⟩
    · simp only [is_japanese, hJ, decide_eq_true_eq]
      omega
    · simp only [is_korean, hK, decide_eq_false_iff_not]
      omega
    · simp only [is_french, hF, hA, decide_eq_false_iff_not]
      omega
    · simp only [english_heuristic, hA]
      have hdec : decide (0 < nonSpaceLen t ∧ nonSpaceLen t < 2 * 0) = false := by
        simp
      rw [hdec, Bool.false_and]
  · intro t hn hall
    rw [allAsciiAlpha, List.all_eq_true] at hall
    have hall' : ∀ c ∈ t.data, c = ' ' ∨ isAsciiAlphaChar c = true := by
      intro c hc
      simpa [Bool.or_eq_true, decide_eq_true_eq] using hall c hc
    have hA : t.data.countP isAsciiAlphaChar = nonSpaceLen t := by
      rw [countP_single_script t.data isAsciiAlphaChar hall'
        (fun c hc => (asciiAlpha_not_others c hc).2.2.2)]
      rw [nonSpaceLen, List.countP_eq_length_filter]
    have hK : t.data.countP isHangulChar = 0 :=
      countP_zero_of t.data isAsciiAlphaChar isHangulChar hall' (by decide)
        (fun c hc => (asciiAlpha_not_others c hc).1)
    have hJ : t.data.countP isJapaneseChar = 0 :=
      countP_zero_of t.data isAsciiAlphaChar isJapaneseChar hall' (by decide)
        (fun c hc => (asciiAlpha_not_others c hc).2.1)
    have hF : t.data.countP (fun c => frenchChars.contains c) = 0 :=
      countP_zero_of t.data isAsciiAlphaChar (fun c => frenchChars.contains c) hall'
        (by decide) (fun c hc => (asciiAlpha_not_others c hc).2.2.1)
    have hAny : t.data.any (fun c => frenchChars.contains c) = false := by
      rw [List.any_eq_false]
      intro c hc
      rcases hall' c hc with rfl | hp
      · decide
      · show ¬ frenchChars.contains c = true
        rw [(asciiAlpha_not_others c hp).2.2.1]
        simp
    refine ⟨?_, ?_, ?_, ?_⟩
    · simp only [english_heuristic, hA, hAny, Bool.not_false, Bool.and_true,
        decide_eq_true_eq]
      omega
    · simp only [is_french, hA, hF, decide_eq_true_eq]
      omega
    · simp only [is_korean, hK, decide_eq_false_iff_not]
      omega
    · simp only [is_japanese, hJ, decide_eq_false_iff_not]
      omega
  · intro t h
    simp only [english_heuristic, Bool.and_eq_true, decide_eq_true_eq] at h
    obtain ⟨⟨hn, ha⟩, -⟩ := h
    simp only [is_french, decide_eq_true_eq]
    exact ⟨hn, ha, Or.inr (by omega)⟩

/-- C6 amended, witness: a Hangul-only fragment is accepted exactly by the
Korean classifier, a hiragana-only fragment by the Japanese one, the
Latin-only fragment `"hello"` is rejected by both Korean and Japanese, and
the English-accepted `"hello"` is also French-accepted. -/
theorem classifier_exclusivity_amended_witness :
    (is_korean "안녕" = true ∧ is_french "안녕" = false) ∧
    is_japanese "こんにちは" = true ∧
    (is_korean "hello" = false ∧ is_japanese "hello" = false ∧
      english_heuristic "hello" = true) ∧
    is_french "hello" = true :=
  ⟨⟨(classifier_exclusivity_amended.1 "안녕" (by decide) (by decide)).1,
    (classifier_exclusivity_amended.1 "안녕" (by decide) (by decide)).2.2.1⟩,
   (classifier_exclusivity_amended.2.1 "こんにちは" (by decide) (by decide)).1,
   ⟨(classifier_exclusivity_amended.2.2.1 "hello" (by decide) (by decide)).2.2.1,
    (classifier_exclusivity_amended.2.2.1 "hello" (by decide) (by decide)).2.2.2,
    (classifier_exclusivity_amended.2.2.1 "hello" (by decide) (by decide)).1⟩,
   classifier_exclusivity_amended.2.2.2 "hello" (by decide)⟩

/-- C5: `add_pair` appends a pair — to the in-memory list and to the ledger
file, with the next sequence number and trimmed texts — if and only if both
the source and the translated text are non-empty after trimming; on
rejection the session (ledger, file and sequence counter) is returned
unchanged. -/
theorem add_pair_iff (s : TranslatorSession) (ts input_text output_text : String) :
    (pyStrip input_text ≠ "" ∧ pyStrip output_text ≠ "" →
        s.add_pair ts input_text output_text =
          ({ s with
              chunk_count := s.chunk_count + 1
              pairs := s.pairs ++
                [⟨s.chunk_count + 1, ts, pyStrip input_text, pyStrip output_text⟩]
              fileLines := s.fileLines ++
                [⟨s.chunk_count + 1, ts, pyStrip input_text, pyStrip output_text⟩] },
            true)) ∧
    (¬ (pyStrip input_text ≠ "" ∧ pyStrip output_text ≠ "") →
        s.add_pair ts input_text output_text = (s, false)) := by
  unfold TranslatorSession.add_pair
  split
  · exact ⟨fun _ => rfl, fun hn => absurd (by assumption) hn⟩
  · exact ⟨fun hy => absurd hy (by assumption), fun _ => rfl⟩

/-- C5 witness: a whitespace-only source is rejected with the session
unchanged; a pair with both texts non-empty after trimming is accepted. -/
theorem add_pair_iff_witness :
    TranslatorSession.add_pair (TranslatorSession.mkSession "run") "t0" "   " "ok" =
      (TranslatorSession.mkSession "run", false) ∧
    (TranslatorSession.add_pair (TranslatorSession.mkSession "run") "t0" " hi " "ok").2 =
      true := by
  constructor
  · exact (add_pair_iff (TranslatorSession.mkSession "run") "t0" "   " "ok").2 (by decide)
  · rw [(add_pair_iff (TranslatorSession.mkSession "run") "t0" " hi " "ok").1
      ⟨by decide, by decide⟩]

/-- C7: on an interruption signal the accumulator emits exactly one chunk
carrying the trimmed buffer when the buffer is non-empty after trimming and
nothing otherwise, and in both cases resets the buffer to empty and
restarts the flush timer at the interruption instant. -/
theorem interruption_flush (minF : ℚ) (lang buffer : String) (last now : ℚ) :
    recvStep minF lang ⟨buffer, last⟩ (RecvEvent.interrupted now) =
      (⟨"", now⟩, if pyStrip buffer = "" then none else some (pyStrip buffer)) := by
  simp only [recvStep]
  split <;> simp [*]

/-- C8: `translate_text` is a total function of the remote call's outcome:
on any failure it returns the visible error-marker string (and the context
and language arguments play no part in the result), and on success it
returns the stripped response text.  It inspects a single remote outcome —
the call is made once, never retried. -/
theorem translate_text_never_raises (context : List TranslationPair)
    (source_lang : String) :
    (∀ e : String, translate_text context source_lang (Except.error e) =
        "[Translation error: " ++ e ++ "]") ∧
    (∀ text : String, translate_text context source_lang (Except.ok text) =
        pyStrip text) :=
  ⟨fun _ => rfl, fun _ => rfl⟩

/-- C9: the validity check rejects, for every language tag, any text that
is empty, whitespace-only or a literal noise marker after trimming; and
each per-language classifier (Korean, Japanese, French, and the inline
English branch) returns `false` on any text with zero non-space characters,
so the character-ratio comparison is never evaluated with a zero
denominator. -/
theorem validity_guards :
    (∀ (text tag : String),
        pyStrip text = "" ∨ pyStrip text = "<noise>" ∨ pyStrip text = "<sound>" →
        is_valid_transcription text tag = false) ∧
    (∀ text : String, nonSpaceLen text = 0 →
        is_korean text = false ∧ is_japanese text = false ∧
        is_french text = false ∧ english_heuristic text = false) := by
  constructor
  · intro text tag h
    have hmem : noiseMarkers.contains (pyStrip text) = true := by
      rcases h with h | h | h <;> rw [h] <;> decide
    unfold is_valid_transcription
    rw [if_pos hmem]
  · intro text h
    refine ⟨?_, ?_, ?_, ?_⟩ <;> simp [is_korean, is_japanese, is_french, english_heuristic, h]

/-- C9 witness: a padded noise marker is rejected under the `"ko"` tag, and
a space-only text matches no classifier. -/
theorem validity_guards_witness :
    is_valid_transcription " <noise> " "ko" = false ∧ is_korean "  " = false := by
  constructor
  · exact validity_guards.1 " <noise> " "ko" (Or.inr (Or.inl (by decide)))
  · exact (validity_guards.2 "  " (by decide)).1

/-- C10: the translation worker re-applies `is_valid_transcription` to
every dequeued chunk as a whole (translator.py line 274) and silently drops
any chunk failing it: the session — ledger, file, counter — is unchanged
and no translation is produced. -/
theorem worker_revalidates_chunks (source_lang : String) (sess : TranslatorSession)
    (source_text ts : String) (remote : Except String String)
    (h : is_valid_transcription source_text source_lang = false) :
    translatorStep source_lang sess source_text ts remote = (sess, none) := by
  unfold translatorStep
  split
  · rfl
  · rw [if_pos (by simp [h])]

/-- C10 witness: the chunk `"<noise>"` passes the fragment-level buffering
filter (it strips to a noise marker, translator.py line 327) and meets the
minimum length, yet the worker drops it whole: it is neither translated nor
appended to the ledger. -/
theorem worker_revalidates_chunks_witness :
    (recvStep 1 "en" ⟨"", 0⟩ (RecvEvent.content 0 (some "<noise>"))).1.buffer =
      "<noise>" ∧
    MIN_CHUNK_LENGTH ≤ (pyStrip "<noise>").length ∧
    translatorStep "en" (TranslatorSession.mkSession "run") "<noise>" "t0"
      (Except.ok "ignored") = (TranslatorSession.mkSession "run", none) :=
  ⟨by decide, by decide,
   worker_revalidates_chunks "en" (TranslatorSession.mkSession "run") "<noise>" "t0"
     (Except.ok "ignored") (by decide)⟩

end LiveTranslation
